import Mathlib

/-!
Shallow embedding of the order-processing subsystem of the "Our Arab Heritage"
marketplace (apps/api/src/routes/order.routes.ts): the order data model, the
create-order handler with its transactional stock decrement, the status-update
handler with its transition table and stock reversal, and the post-commit
best-effort hooks (fraud scoring, shipping notification).

Currency amounts are `Rat`; stock counters are `Int` (so non-negativity is a
provable invariant, not a typing artefact); the relational store is a triple of
lists (products, orders, events); Prisma's `$transaction` is modelled by running
the transaction body on a copy of the state and discarding it on error.
-/

namespace Heritage

/-- Order lifecycle statuses of the Prisma `OrderStatus` enum: the six statuses
of the public update schema plus `PENDING_REVIEW`, which the create handler's
fraud hook assigns directly. -/
inductive OrderStatus where
  | PENDING
  | PROCESSING
  | SHIPPED
  | DELIVERED
  | CANCELLED
  | REFUNDED
  | PENDING_REVIEW
deriving DecidableEq, Repr

/-- Payment methods of the `OrderCreateSchema` enum. -/
inductive PaymentMethod where
  | CREDIT_CARD
  | PAYPAL
  | BANK_TRANSFER
  | CASH_ON_DELIVERY
deriving DecidableEq, Repr

/-- Postal address as validated by `AddressSchema`. -/
structure Address where
  street : String
  city : String
  country : String
  postalCode : String
deriving DecidableEq, Repr

/-- The slice of the Product row the order engine reads and writes. -/
structure Product where
  id : String
  stock : Int
  price : Rat
deriving DecidableEq, Repr

/-- A persisted OrderItem row: immutable price/subtotal snapshot. -/
structure OrderItem where
  productId : String
  quantity : Nat
  price : Rat
  subtotal : Rat
deriving DecidableEq, Repr

/-- A persisted Order row together with its owned items and addresses. -/
structure Order where
  id : String
  userId : String
  total : Rat
  status : OrderStatus
  paymentMethod : PaymentMethod
  customerNote : Option String
  idempotencyKey : Option String
  trackingNumber : Option String
  shippingAddress : Address
  billingAddress : Address
  items : List OrderItem
deriving DecidableEq, Repr

/-- Structured payloads of the three OrderEvent kinds the routes write. -/
inductive EventPayload where
  | created (status : OrderStatus) (total : Rat)
  | statusChange (fromStatus toStatus : OrderStatus) (trackingNumber : Option String)
  | fraudFlagged (riskScore : Rat)
deriving DecidableEq, Repr

/-- A persisted OrderEvent row. -/
structure OrderEvent where
  orderId : String
  type : String
  userId : String
  payload : EventPayload
deriving DecidableEq, Repr

/-- The relational store: product, order and event tables. -/
structure DB where
  products : List Product
  orders : List Order
  events : List OrderEvent
deriving DecidableEq, Repr

/-- prisma.order.findUnique on the order id. -/
def DB.findOrder (db : DB) (id : String) : Option Order :=
  db.orders.find? (fun o => o.id == id)

/-- prisma.order.findFirst on the idempotency key. -/
def DB.findOrderByKey (db : DB) (key : String) : Option Order :=
  db.orders.find? (fun o => o.idempotencyKey == some key)

/-- Stock of the product row with the given id (0 when absent). -/
def stockIn (products : List Product) (pid : String) : Int :=
  match products.find? (fun p => p.id == pid) with
  | some p => p.stock
  | none => 0

/-- Stock of the product row with the given id in the store. -/
def DB.stockOf (db : DB) (pid : String) : Int :=
  stockIn db.products pid

/-- Well-formedness of the product table: primary keys are unique. -/
def DB.wfProducts (db : DB) : Prop :=
  (db.products.map (fun p => p.id)).Nodup

instance {ε α : Type} [DecidableEq ε] [DecidableEq α] : DecidableEq (Except ε α) :=
  fun a b =>
    match a, b with
    | .ok x, .ok y =>
      if h : x = y then isTrue (by rw [h]) else isFalse (by simp [h])
    | .error x, .error y =>
      if h : x = y then isTrue (by rw [h]) else isFalse (by simp [h])
    | .ok _, .error _ => isFalse (by simp)
    | .error _, .ok _ => isFalse (by simp)

/-- Custom error classes of the order routes. -/
inductive OrderError where
  | InsufficientStock (productId : String)
  | InvalidStatusTransition (fromStatus toStatus : OrderStatus)
  | OrderNotFound (id : String)
deriving DecidableEq, Repr

/-- One line of the request's `items` array (`OrderItemSchema`). -/
structure OrderItemInput where
  productId : String
  quantity : Nat
  price : Rat
deriving DecidableEq, Repr

/-- Request body of the create-order route (`OrderCreateSchema`). -/
structure OrderCreateInput where
  items : List OrderItemInput
  shippingAddress : Address
  billingAddress : Option Address
  paymentMethod : PaymentMethod
  customerNote : Option String
  idempotencyKey : Option String
deriving DecidableEq, Repr

/-- Modelled from the spec: `calculateOrderTotal` is imported from
`@/utils/order`, whose source is not in the repository snapshot. Per spec
section 4.1 step 2 it re-derives each item's unit price server-side from the
current catalog (the caller-asserted price is not trusted), sets each
subtotal to price times quantity, and fails on an unknown product. -/
def priceItems (db : DB) : List OrderItemInput → Option (List OrderItem)
  | [] => some []
  | it :: rest =>
    match db.products.find? (fun q => q.id == it.productId) with
    | none => none
    | some p =>
      match priceItems db rest with
      | none => none
      | some priced =>
        some ({ productId := it.productId, quantity := it.quantity,
                price := p.price, subtotal := p.price * it.quantity } :: priced)

/-- Sum of the per-item subtotals. -/
def sumSubtotals (items : List OrderItem) : Rat :=
  items.foldr (fun it acc => it.subtotal + acc) 0

/-- Modelled from the spec: the authoritative total is the sum of the
re-derived subtotals (spec section 4.1 step 2 and the Order total invariant). -/
def calculateOrderTotal (db : DB) (items : List OrderItemInput) :
    Option (Rat × List OrderItem) :=
  match priceItems db items with
  | none => none
  | some priced => some (sumSubtotals priced, priced)

/-- tx.product.updateMany with `where: { id, stock: { gte: quantity } }` and
`data: { stock: { decrement: quantity } }`: every matching row is decremented
and the affected-row count is returned. -/
def condDecrement (products : List Product) (pid : String) (qty : Nat) :
    List Product × Nat :=
  (products.map (fun p =>
      if p.id == pid && decide ((qty : Int) ≤ p.stock) then
        { p with stock := p.stock - qty }
      else p),
   (products.filter (fun p => p.id == pid && decide ((qty : Int) ≤ p.stock))).length)

/-- The batch of conditional decrements, one per cart item, in item order,
returning the affected-row counts in the same order. -/
def decrementAll (products : List Product) :
    List OrderItemInput → List Product × List Nat
  | [] => (products, [])
  | it :: rest =>
    let r1 := condDecrement products it.productId it.quantity
    let r2 := decrementAll r1.1 rest
    (r2.1, r1.2 :: r2.2)

/-- The `updateResults.forEach` check: throw `InsufficientStockError` for the
first item whose conditional decrement affected zero rows. -/
def checkCounts : List (Nat × String) → Except OrderError Unit
  | [] => .ok ()
  | (c, pid) :: rest =>
    if c = 0 then .error (.InsufficientStock pid) else checkCounts rest

/-- Body of the create-order `prisma.$transaction`: insert the Order row with
nested items and addresses, run the conditional decrements, check the counts,
append the CREATED event. An error aborts with no committed state. -/
def runCreateTx (db : DB) (userId orderId : String) (req : OrderCreateInput)
    (total : Rat) (itemsWithDetails : List OrderItem) :
    Except OrderError (DB × Order) :=
  let newOrder : Order :=
    { id := orderId, userId := userId, total := total, status := .PENDING,
      paymentMethod := req.paymentMethod, customerNote := req.customerNote,
      idempotencyKey := req.idempotencyKey, trackingNumber := none,
      shippingAddress := req.shippingAddress,
      billingAddress := req.billingAddress.getD req.shippingAddress,
      items := itemsWithDetails }
  let db1 : DB := { db with orders := db.orders ++ [newOrder] }
  let dec := decrementAll db1.products req.items
  let db2 : DB := { db1 with products := dec.1 }
  match checkCounts (dec.2.zip (req.items.map (fun it => it.productId))) with
  | .error e => .error e
  | .ok _ =>
    let ev : OrderEvent :=
      { orderId := orderId, type := "CREATED", userId := userId,
        payload := .created .PENDING total }
    .ok ({ db2 with events := db2.events ++ [ev] }, newOrder)

/-- Deployment configuration read by the create handler. -/
structure Env where
  productionMode : Bool
  fraudCheckEnabled : Bool
  fraudRiskThreshold : Rat
deriving DecidableEq, Repr

/-- Behaviour of the external fraud-scoring service on this run. -/
inductive FraudOutcome where
  | score (risk : Rat)
  | failed
deriving DecidableEq, Repr

/-- `performFraudCheck`: the fetch to the fraud service either yields a risk
score or fails; the function's own catch logs the failure and returns 0
(fail open), so it never propagates an error. -/
def performFraudCheck (outcome : FraudOutcome) : Except String Rat :=
  match outcome with
  | .score r => .ok r
  | .failed => .ok 0

/-- `notifyShippingProvider`: the fetch to the shipping webhook either succeeds
or fails; the function's own catch logs the failure and returns normally, so
it never propagates an error. -/
def notifyShippingProvider (fetchOk : Bool) : Except String Unit :=
  match fetchOk with
  | true => .ok ()
  | false => .ok ()

/-- Responses of the create-order route. -/
inductive CreateResult where
  | created (order : Order)
  | conflictExisting (order : Order)
  | insufficientStock (productId : String)
  | internalError
deriving DecidableEq, Repr

/-- Pricing, transaction and post-commit fraud hook of the create handler
(everything after the idempotency check). On a transaction error the store is
returned unchanged (rollback). -/
def createOrderMain (db : DB) (env : Env) (fraud : FraudOutcome)
    (userId orderId : String) (req : OrderCreateInput) : DB × CreateResult :=
  match calculateOrderTotal db req.items with
  | none => (db, .internalError)
  | some priced =>
    match runCreateTx db userId orderId req priced.1 priced.2 with
    | .error (.InsufficientStock pid) => (db, .insufficientStock pid)
    | .error _ => (db, .internalError)
    | .ok committed =>
      let db1 := committed.1
      let order := committed.2
      if env.productionMode && env.fraudCheckEnabled then
        match performFraudCheck fraud with
        | .error _ => (db1, .internalError)
        | .ok risk =>
          if env.fraudRiskThreshold < risk then
            let db2 : DB := { db1 with
              orders := db1.orders.map (fun o =>
                if o.id == order.id then { o with status := .PENDING_REVIEW } else o) }
            let db3 : DB := { db2 with events := db2.events ++
              [{ orderId := order.id, type := "FRAUD_FLAGGED", userId := "system",
                 payload := .fraudFlagged risk }] }
            (db3, .created order)
          else (db1, .created order)
      else (db1, .created order)

/-- The POST / create-order handler: idempotency check, then pricing,
transaction and post-commit fraud hook. -/
def createOrder (db : DB) (env : Env) (fraud : FraudOutcome)
    (userId orderId : String) (req : OrderCreateInput) : DB × CreateResult :=
  match req.idempotencyKey with
  | some key =>
    match db.findOrderByKey key with
    | some existing => (db, .conflictExisting existing)
    | none => createOrderMain db env fraud userId orderId req
  | none => createOrderMain db env fraud userId orderId req

/-- The `VALID_STATUS_TRANSITIONS` record. It has no `PENDING_REVIEW` key, so
the lookup for that status is `none` (JavaScript `undefined`). -/
def VALID_STATUS_TRANSITIONS : OrderStatus → Option (List OrderStatus)
  | .PENDING => some [.PROCESSING, .CANCELLED]
  | .PROCESSING => some [.SHIPPED, .CANCELLED]
  | .SHIPPED => some [.DELIVERED]
  | .DELIVERED => some [.REFUNDED]
  | .CANCELLED => some []
  | .REFUNDED => some []
  | .PENDING_REVIEW => none

/-- Responses of the status-update route. -/
inductive UpdateResult where
  | ok (order : Order)
  | notFound (id : String)
  | invalidTransition (fromStatus toStatus : OrderStatus)
  | internalError
deriving DecidableEq, Repr

/-- JavaScript truthiness of the optional tracking-number string, as used by
`...(trackingNumber && { trackingNumber })`. -/
def truthy (s : Option String) : Bool :=
  match s with
  | none => false
  | some str => !(str == "")

/-- tx.product.update with `where: { id }` and `data: { stock: { increment } }`:
increments the matching row, or aborts the transaction when no row matches. -/
def incrementStock (products : List Product) (pid : String) (qty : Nat) :
    Option (List Product) :=
  if products.any (fun p => p.id == pid) then
    some (products.map (fun p =>
      if p.id == pid then { p with stock := p.stock + qty } else p))
  else none

/-- The per-item stock reversal loop of the cancellation branch. -/
def revertAll (products : List Product) : List OrderItem → Option (List Product)
  | [] => some products
  | it :: rest =>
    match incrementStock products it.productId it.quantity with
    | none => none
    | some ps => revertAll ps rest

/-- The PATCH /:id/status handler: load the order, validate the transition
against `VALID_STATUS_TRANSITIONS`, then in one transaction revert stock when
cancelling a PENDING or PROCESSING order, update the status (and the tracking
number whenever one is supplied), append the STATUS_CHANGE event; after the
commit, notify the shipping provider when the new status is SHIPPED and a
tracking number was supplied. A lookup on a status missing from the table is
`undefined` in JavaScript, so `.includes` throws and the generic catch answers
500 with no mutation. -/
def updateStatus (db : DB) (id : String) (targetStatus : OrderStatus)
    (trackingNumber : Option String) (userId : String) (shipOk : Bool) :
    DB × UpdateResult :=
  match db.findOrder id with
  | none => (db, .notFound id)
  | some currentOrder =>
    match VALID_STATUS_TRANSITIONS currentOrder.status with
    | none => (db, .internalError)
    | some allowed =>
      if targetStatus ∈ allowed then
        let doRevert : Bool :=
          targetStatus == .CANCELLED &&
            (currentOrder.status == .PENDING || currentOrder.status == .PROCESSING)
        match (if doRevert then revertAll db.products currentOrder.items
               else some db.products) with
        | none => (db, .internalError)
        | some ps =>
          let updatedOrder : Order :=
            { currentOrder with
                status := targetStatus,
                trackingNumber :=
                  if truthy trackingNumber then trackingNumber
                  else currentOrder.trackingNumber }
          let ev : OrderEvent :=
            { orderId := id, type := "STATUS_CHANGE", userId := userId,
              payload := .statusChange currentOrder.status targetStatus
                (if truthy trackingNumber then trackingNumber else none) }
          let db1 : DB :=
            { products := ps,
              orders := db.orders.map (fun o => if o.id == id then updatedOrder else o),
              events := db.events ++ [ev] }
          match (if targetStatus == .SHIPPED && truthy trackingNumber then
                   notifyShippingProvider shipOk
                 else .ok ()) with
          | .error _ => (db1, .internalError)
          | .ok _ => (db1, .ok updatedOrder)
      else (db, .invalidTransition currentOrder.status targetStatus)

/-- Whether a create-order response is the 201 success. -/
def CreateResult.isCreated : CreateResult → Bool
  | .created _ => true
  | _ => false

/-- A cart item has sufficient stock when some product row matches the
conditional decrement's guard (`id` equal and `stock ≥ quantity`). -/
def hasSufficient (products : List Product) (it : OrderItemInput) : Prop :=
  ∃ p ∈ products, p.id = it.productId ∧ (it.quantity : Int) ≤ p.stock

instance (products : List Product) (it : OrderItemInput) :
    Decidable (hasSufficient products it) := by
  unfold hasSufficient; infer_instance

/-- Affected-row count of one item's conditional decrement against a product
table. -/
def countFor (products : List Product) (it : OrderItemInput) : Nat :=
  (products.filter
    (fun p => p.id == it.productId && decide ((it.quantity : Int) ≤ p.stock))).length

/-- Total quantity an order's item list holds for one product. -/
def qtyFor : List OrderItem → String → Nat
  | [], _ => 0
  | it :: rest, pid => (if it.productId = pid then it.quantity else 0) + qtyFor rest pid

/-- One invocation of the order engine's command surface. -/
inductive Op where
  | create (env : Env) (fraud : FraudOutcome) (userId orderId : String)
      (req : OrderCreateInput)
  | update (id : String) (targetStatus : OrderStatus)
      (trackingNumber : Option String) (userId : String) (shipOk : Bool)

/-- The store after one command (responses discarded). -/
def step (db : DB) : Op → DB
  | .create env fraud userId orderId req =>
    (createOrder db env fraud userId orderId req).1
  | .update id targetStatus trackingNumber userId shipOk =>
    (updateStatus db id targetStatus trackingNumber userId shipOk).1

/-- The store after a sequence of commands. -/
def run (db : DB) : List Op → DB
  | [] => db
  | op :: rest => run (step db op) rest

/-- Quantity of one product reversed by a command: nonzero exactly when the
command is a legal cancellation of a PENDING or PROCESSING order, in which
case it is that order's total quantity for the product. -/
def reversedInStep (db : DB) (op : Op) (pid : String) : Nat :=
  match op with
  | .create _ _ _ _ _ => 0
  | .update id targetStatus _ _ _ =>
    match db.findOrder id with
    | none => 0
    | some o =>
      match VALID_STATUS_TRANSITIONS o.status with
      | none => 0
      | some allowed =>
        if targetStatus ∈ allowed ∧ targetStatus = .CANCELLED ∧
            (o.status = .PENDING ∨ o.status = .PROCESSING) then
          qtyFor o.items pid
        else 0

/-- Quantity of one product reversed by cancellations along a command trace. -/
def reversedQty (db : DB) (ops : List Op) (pid : String) : Nat :=
  match ops with
  | [] => 0
  | op :: rest => reversedInStep db op pid + reversedQty (step db op) rest pid

/-! Concrete fixtures used by the closed witness and counterexample theorems. -/

/-- A valid shipping address. -/
def exAddr : Address :=
  { street := "12 Museum Way", city := "Amman", country := "JO", postalCode := "11181" }

/-- A store with one product `A` holding a single unit of stock. -/
def dbStock1 : DB :=
  { products := [{ id := "A", stock := 1, price := 10 }], orders := [], events := [] }

/-- A cart requesting one unit of product `A`. -/
def reqA : OrderCreateInput :=
  { items := [{ productId := "A", quantity := 1, price := 10 }],
    shippingAddress := exAddr, billingAddress := none,
    paymentMethod := .CREDIT_CARD, customerNote := none, idempotencyKey := none }

/-- The idempotency key of the keyed fixture request. -/
def keyA : String := "11111111-1111-1111-1111-111111111111"

/-- The cart `reqA` tagged with an idempotency key. -/
def reqAKey : OrderCreateInput := { reqA with idempotencyKey := some keyA }

/-- A deployment with the fraud hook disabled. -/
def envOff : Env :=
  { productionMode := false, fraudCheckEnabled := false, fraudRiskThreshold := 8/10 }

/-- A production deployment with the fraud hook enabled at the default 0.8
threshold. -/
def envOn : Env :=
  { productionMode := true, fraudCheckEnabled := true, fraudRiskThreshold := 8/10 }

/-- An order template for fixtures. -/
def exOrder : Order :=
  { id := "o1", userId := "u1", total := 10, status := .PENDING,
    paymentMethod := .CREDIT_CARD, customerNote := none, idempotencyKey := none,
    trackingNumber := none, shippingAddress := exAddr, billingAddress := exAddr,
    items := [] }

/-- A store holding one order flagged into PENDING_REVIEW by the fraud hook. -/
def dbReview : DB :=
  { products := [], orders := [{ exOrder with status := .PENDING_REVIEW }], events := [] }

/-- A store holding one PENDING order with no items. -/
def dbPending : DB :=
  { products := [], orders := [exOrder], events := [] }

/-- The item lines of the spec's stock-reversal example: 2 of `p1`, 1 of `p2`. -/
def cancelItems : List OrderItem :=
  [{ productId := "p1", quantity := 2, price := 10, subtotal := 20 },
   { productId := "p2", quantity := 1, price := 2, subtotal := 2 }]

/-- A PENDING order over two products, as in the spec's stock reversal
example. -/
def orderCancel : Order := { exOrder with total := 22, items := cancelItems }

/-- A store holding a PENDING order over two products, as in the spec's stock
reversal example. -/
def dbCancel : DB :=
  { products := [{ id := "p1", stock := 3, price := 10 }, { id := "p2", stock := 5, price := 2 }],
    orders := [orderCancel],
    events := [] }

/-- The fixture order after cancellation. -/
def orderCancelled : Order := { orderCancel with status := .CANCELLED }

/-- The STATUS_CHANGE audit event of the cancellation. -/
def evCancelled : OrderEvent :=
  { orderId := "o1", type := "STATUS_CHANGE", userId := "admin",
    payload := .statusChange .PENDING .CANCELLED none }

/-- The store after the cancellation: stock fully reversed, event appended. -/
def dbCancelAfter : DB :=
  { products := [{ id := "p1", stock := 5, price := 10 }, { id := "p2", stock := 6, price := 2 }],
    orders := [orderCancelled],
    events := [evCancelled] }

/-- The catalog of the spec's total-consistency example: unit prices 10.00 and
5.50. -/
def dbCatalog : DB :=
  { products := [{ id := "p1", stock := 9, price := 10 }, { id := "p2", stock := 9, price := 11/2 }],
    orders := [], events := [] }

/-- The cart of the spec's total-consistency example: quantities 2 and 1. -/
def reqCatalog : OrderCreateInput :=
  { items := [{ productId := "p1", quantity := 2, price := 10 },
              { productId := "p2", quantity := 1, price := 11/2 }],
    shippingAddress := exAddr, billingAddress := none,
    paymentMethod := .PAYPAL, customerNote := none, idempotencyKey := none }

/-- The order created from the total-consistency example: subtotals 20.00 and
5.50, total 25.50. -/
def orderCatalog : Order :=
  { id := "o1", userId := "u1", total := 51/2, status := .PENDING,
    paymentMethod := .PAYPAL, customerNote := none, idempotencyKey := none,
    trackingNumber := none, shippingAddress := exAddr, billingAddress := exAddr,
    items := [{ productId := "p1", quantity := 2, price := 10, subtotal := 20 },
              { productId := "p2", quantity := 1, price := 11/2, subtotal := 11/2 }] }

/-- The catalog store after creating the example order. -/
def dbCatalogAfter : DB :=
  { products := [{ id := "p1", stock := 7, price := 10 }, { id := "p2", stock := 8, price := 11/2 }],
    orders := [orderCatalog],
    events := [{ orderId := "o1", type := "CREATED", userId := "u1",
                 payload := .created .PENDING (51/2) }] }

/-- The priced item list of the `reqA` cart against `dbStock1`. -/
def pricedItemsA : List OrderItem :=
  [{ productId := "A", quantity := 1, price := 10, subtotal := 10 }]

/-- The order created from `reqA` (no idempotency key). -/
def orderA : Order :=
  { id := "o1", userId := "u1", total := 10, status := .PENDING,
    paymentMethod := .CREDIT_CARD, customerNote := none, idempotencyKey := none,
    trackingNumber := none, shippingAddress := exAddr, billingAddress := exAddr,
    items := pricedItemsA }

/-- The store after creating `orderA` from `dbStock1`. -/
def dbAfterA : DB :=
  { products := [{ id := "A", stock := 0, price := 10 }],
    orders := [orderA],
    events := [{ orderId := "o1", type := "CREATED", userId := "u1",
                 payload := .created .PENDING 10 }] }

/-- A cart requesting two units of product `A` (more than `dbStock1` holds). -/
def reqA2 : OrderCreateInput :=
  { reqA with items := [{ productId := "A", quantity := 2, price := 10 }] }

/-- A cart requesting one unit of product `p1` from the `dbCancel` catalog. -/
def reqP1 : OrderCreateInput :=
  { reqA with items := [{ productId := "p1", quantity := 1, price := 10 }] }

/-- The fixture order after a PENDING → PROCESSING update carrying tracking
number TRACK-1. -/
def exOrderTracked : Order :=
  { exOrder with status := .PROCESSING, trackingNumber := some "TRACK-1" }

/-- The STATUS_CHANGE audit event of that update. -/
def evTracked : OrderEvent :=
  { orderId := "o1", type := "STATUS_CHANGE", userId := "admin",
    payload := .statusChange .PENDING .PROCESSING (some "TRACK-1") }

/-- The fixture store after that update. -/
def dbPendingTracked : DB :=
  { products := [], orders := [exOrderTracked], events := [evTracked] }

/-- The order created by the keyed fixture request. -/
def orderAKey : Order :=
  { id := "o1", userId := "u1", total := 10, status := .PENDING,
    paymentMethod := .CREDIT_CARD, customerNote := none,
    idempotencyKey := some keyA, trackingNumber := none,
    shippingAddress := exAddr, billingAddress := exAddr,
    items := [{ productId := "A", quantity := 1, price := 10, subtotal := 10 }] }

/-- The store after the first keyed create call: stock 0, one order, one
CREATED event. -/
def dbAfterKey : DB :=
  { products := [{ id := "A", stock := 0, price := 10 }],
    orders := [orderAKey],
    events := [{ orderId := "o1", type := "CREATED", userId := "u1",
                 payload := .created .PENDING 10 }] }

/-- A command trace: create an order for `p1`, then cancel the fixture order. -/
def opsCancel : List Op :=
  [.create envOff .failed "u1" "o9" reqP1, .update "o1" .CANCELLED none "admin" true]

/-! Helper lemmas about the store primitives. -/

theorem find_map_pres (f : Product → Product) (hf : ∀ p, (f p).id = p.id)
    (ps : List Product) (pid : String) :
    (ps.map f).find? (fun p => p.id == pid) =
      (ps.find? (fun p => p.id == pid)).map f := by
  rw [List.find?_map]
  have hpe : ((fun p : Product => p.id == pid) ∘ f) = (fun p : Product => p.id == pid) := by
    funext p
    simp [Function.comp, hf]
  rw [hpe]

theorem condDecrement_fst (ps : List Product) (pid : String) (q : Nat) :
    (condDecrement ps pid q).1 = ps.map (fun p =>
      if p.id == pid && decide ((q : Int) ≤ p.stock) then
        { p with stock := p.stock - q } else p) := rfl

theorem find_condDecrement (ps : List Product) (pid0 : String) (q : Nat) (pid : String) :
    (condDecrement ps pid0 q).1.find? (fun p => p.id == pid) =
      (ps.find? (fun p => p.id == pid)).map (fun p =>
        if p.id == pid0 && decide ((q : Int) ≤ p.stock) then
          { p with stock := p.stock - q } else p) := by
  rw [condDecrement_fst]
  apply find_map_pres
  intro p
  split <;> rfl

theorem condDecrement_ids (ps : List Product) (pid : String) (q : Nat) :
    (condDecrement ps pid q).1.map (fun p => p.id) = ps.map (fun p => p.id) := by
  rw [condDecrement_fst, List.map_map]
  apply List.map_congr_left
  intro p _
  simp only [Function.comp]
  split <;> rfl

theorem decrementAll_ids (items : List OrderItemInput) (ps : List Product) :
    (decrementAll ps items).1.map (fun p => p.id) = ps.map (fun p => p.id) := by
  induction items generalizing ps with
  | nil => rfl
  | cons it rest ih =>
    simp only [decrementAll]
    rw [ih, condDecrement_ids]

theorem stockIn_condDecrement_le (ps : List Product) (pid0 : String) (q : Nat)
    (pid : String) :
    stockIn (condDecrement ps pid0 q).1 pid ≤ stockIn ps pid := by
  unfold stockIn
  rw [find_condDecrement]
  cases h : ps.find? (fun p => p.id == pid) with
  | none => simp
  | some p =>
    simp only [Option.map_some']
    by_cases hc : (p.id == pid0 && decide ((q : Int) ≤ p.stock)) = true
    · simp only [if_pos hc]
      omega
    · simp only [if_neg hc]
      exact le_refl _

theorem stockIn_decrementAll_le (items : List OrderItemInput) (ps : List Product)
    (pid : String) :
    stockIn (decrementAll ps items).1 pid ≤ stockIn ps pid := by
  induction items generalizing ps with
  | nil => exact le_refl _
  | cons it rest ih =>
    simp only [decrementAll]
    exact le_trans (ih _) (stockIn_condDecrement_le _ _ _ _)

theorem condDecrement_nonneg (ps : List Product) (pid : String) (q : Nat)
    (h : ∀ p ∈ ps, 0 ≤ p.stock) :
    ∀ p ∈ (condDecrement ps pid q).1, 0 ≤ p.stock := by
  intro p hp
  rw [condDecrement_fst] at hp
  obtain ⟨p0, hp0, rfl⟩ := List.mem_map.mp hp
  by_cases hc : (p0.id == pid && decide ((q : Int) ≤ p0.stock)) = true
  · simp only [if_pos hc]
    have hq : (q : Int) ≤ p0.stock := by
      have := (Bool.and_eq_true _ _).mp hc
      exact of_decide_eq_true this.2
    omega
  · simp only [if_neg hc]
    exact h p0 hp0

theorem decrementAll_nonneg (items : List OrderItemInput) (ps : List Product)
    (h : ∀ p ∈ ps, 0 ≤ p.stock) :
    ∀ p ∈ (decrementAll ps items).1, 0 ≤ p.stock := by
  induction items generalizing ps with
  | nil => exact h
  | cons it rest ih =>
    simp only [decrementAll]
    exact ih _ (condDecrement_nonneg _ _ _ h)

theorem incrementStock_some (ps : List Product) (pid : String) (q : Nat)
    (ps1 : List Product) (h : incrementStock ps pid q = some ps1) :
    ps1 = ps.map (fun p => if p.id == pid then { p with stock := p.stock + q } else p) ∧
    (ps.find? (fun p => p.id == pid)).isSome := by
  unfold incrementStock at h
  by_cases ha : ps.any (fun p => p.id == pid) = true
  · rw [if_pos ha] at h
    refine ⟨(Option.some_inj.mp h).symm, ?_⟩
    rw [List.find?_isSome]
    exact List.any_eq_true.mp ha
  · rw [if_neg ha] at h
    cases h

theorem incrementStock_ids (ps : List Product) (pid : String) (q : Nat)
    (ps1 : List Product) (h : incrementStock ps pid q = some ps1) :
    ps1.map (fun p => p.id) = ps.map (fun p => p.id) := by
  rw [(incrementStock_some ps pid q ps1 h).1, List.map_map]
  apply List.map_congr_left
  intro p _
  simp only [Function.comp]
  split <;> rfl

theorem incrementStock_nonneg (ps : List Product) (pid : String) (q : Nat)
    (ps1 : List Product) (h : incrementStock ps pid q = some ps1)
    (h0 : ∀ p ∈ ps, 0 ≤ p.stock) :
    ∀ p ∈ ps1, 0 ≤ p.stock := by
  rw [(incrementStock_some ps pid q ps1 h).1]
  intro p hp
  obtain ⟨p0, hp0, rfl⟩ := List.mem_map.mp hp
  have := h0 p0 hp0
  split <;> simp <;> omega

theorem stockIn_incrementStock (ps : List Product) (pid0 : String) (q : Nat)
    (ps1 : List Product) (h : incrementStock ps pid0 q = some ps1) (pid : String) :
    stockIn ps1 pid = stockIn ps pid + (if pid0 = pid then (q : Int) else 0) := by
  obtain ⟨heq, hsome⟩ := incrementStock_some ps pid0 q ps1 h
  subst heq
  unfold stockIn
  rw [find_map_pres]
  · cases hf : ps.find? (fun p => p.id == pid) with
    | none =>
      by_cases hp : pid0 = pid
      · subst hp
        rw [hf] at hsome
        cases hsome
      · simp [hp]
    | some p =>
      have hpid : p.id = pid := by
        have := List.find?_some hf
        exact of_decide_eq_true this
      simp only [Option.map_some']
      by_cases hp : pid0 = pid
      · subst hp
        rw [if_pos (by simp [hpid] : (p.id == pid0) = true)]
        simp
      · rw [if_neg (by simp [hpid] ; exact fun hh => hp hh.symm : ¬(p.id == pid0) = true)]
        simp [hp]
  · intro p
    split <;> rfl

theorem revertAll_ids (items : List OrderItem) (ps ps1 : List Product)
    (h : revertAll ps items = some ps1) :
    ps1.map (fun p => p.id) = ps.map (fun p => p.id) := by
  induction items generalizing ps with
  | nil =>
    simp only [revertAll] at h
    rw [Option.some_inj.mp h]
  | cons it rest ih =>
    simp only [revertAll] at h
    cases hinc : incrementStock ps it.productId it.quantity with
    | none => rw [hinc] at h; cases h
    | some ps2 =>
      rw [hinc] at h
      rw [ih ps2 h, incrementStock_ids _ _ _ _ hinc]

theorem revertAll_nonneg (items : List OrderItem) (ps ps1 : List Product)
    (h : revertAll ps items = some ps1) (h0 : ∀ p ∈ ps, 0 ≤ p.stock) :
    ∀ p ∈ ps1, 0 ≤ p.stock := by
  induction items generalizing ps with
  | nil =>
    simp only [revertAll] at h
    exact (Option.some_inj.mp h) ▸ h0
  | cons it rest ih =>
    simp only [revertAll] at h
    cases hinc : incrementStock ps it.productId it.quantity with
    | none => rw [hinc] at h; cases h
    | some ps2 =>
      rw [hinc] at h
      exact ih ps2 h (incrementStock_nonneg _ _ _ _ hinc h0)

theorem stockIn_revertAll (items : List OrderItem) (ps ps1 : List Product)
    (h : revertAll ps items = some ps1) (pid : String) :
    stockIn ps1 pid = stockIn ps pid + (qtyFor items pid : Int) := by
  induction items generalizing ps with
  | nil =>
    simp only [revertAll] at h
    rw [Option.some_inj.mp h]
    simp [qtyFor]
  | cons it rest ih =>
    simp only [revertAll] at h
    cases hinc : incrementStock ps it.productId it.quantity with
    | none => rw [hinc] at h; cases h
    | some ps2 =>
      rw [hinc] at h
      rw [ih ps2 h, stockIn_incrementStock _ _ _ _ hinc]
      simp only [qtyFor]
      by_cases hp : it.productId = pid
      · simp only [if_pos hp]
        push_cast
        ring
      · simp only [if_neg hp]
        push_cast
        ring

theorem checkCounts_ok_of_all (l : List (Nat × String)) (h : ∀ x ∈ l, x.1 ≠ 0) :
    checkCounts l = .ok () := by
  induction l with
  | nil => rfl
  | cons x rest ih =>
    simp only [checkCounts]
    rw [if_neg (h x (List.mem_cons_self _ _))]
    exact ih (fun y hy => h y (List.mem_cons_of_mem _ hy))

theorem checkCounts_all_of_ok (l : List (Nat × String)) (h : checkCounts l = .ok ()) :
    ∀ x ∈ l, x.1 ≠ 0 := by
  induction l with
  | nil => intro x hx; cases hx
  | cons x rest ih =>
    intro y hy
    simp only [checkCounts] at h
    by_cases hx : x.1 = 0
    · rw [if_pos hx] at h; cases h
    · rw [if_neg hx] at h
      rcases List.mem_cons.mp hy with rfl | hy'
      · exact hx
      · exact ih h y hy'

theorem checkCounts_error_of_ex (l : List (Nat × String)) (h : ∃ x ∈ l, x.1 = 0) :
    ∃ x ∈ l, x.1 = 0 ∧ checkCounts l = .error (.InsufficientStock x.2) := by
  induction l with
  | nil => obtain ⟨x, hx, _⟩ := h; cases hx
  | cons y rest ih =>
    by_cases hy : y.1 = 0
    · refine ⟨y, List.mem_cons_self _ _, hy, ?_⟩
      simp only [checkCounts]
      rw [if_pos hy]
    · have hrest : ∃ x ∈ rest, x.1 = 0 := by
        obtain ⟨x, hx, hx0⟩ := h
        rcases List.mem_cons.mp hx with rfl | hx'
        · exact absurd hx0 hy
        · exact ⟨x, hx', hx0⟩
      obtain ⟨x, hx, hx0, hres⟩ := ih hrest
      refine ⟨x, List.mem_cons_of_mem _ hx, hx0, ?_⟩
      simp only [checkCounts]
      rw [if_neg hy]
      exact hres

theorem countFor_eq_countP (ps : List Product) (it : OrderItemInput) :
    countFor ps it =
      ps.countP (fun p => p.id == it.productId && decide ((it.quantity : Int) ≤ p.stock)) :=
  (List.countP_eq_length_filter _ _).symm

theorem countFor_condDecrement_other (ps : List Product) (pid0 : String) (q0 : Nat)
    (it : OrderItemInput) (h : it.productId ≠ pid0) :
    countFor (condDecrement ps pid0 q0).1 it = countFor ps it := by
  rw [countFor_eq_countP, countFor_eq_countP, condDecrement_fst, List.countP_map]
  apply List.countP_congr
  intro p _
  simp only [Function.comp]
  by_cases hc : (p.id == pid0 && decide ((q0 : Int) ≤ p.stock)) = true
  · have hpid : p.id = pid0 := by
      have h2 := ((Bool.and_eq_true _ _).mp hc).1
      simpa using h2
    simp only [if_pos hc]
    constructor
    · intro hh
      have h2 := ((Bool.and_eq_true _ _).mp hh).1
      have h3 : p.id = it.productId := by simpa using h2
      exact absurd (h3 ▸ hpid) h
    · intro hh
      have h2 := ((Bool.and_eq_true _ _).mp hh).1
      have h3 : p.id = it.productId := by simpa using h2
      exact absurd (h3 ▸ hpid) h
  · simp only [if_neg hc]

theorem countFor_eq_zero_iff (ps : List Product) (it : OrderItemInput) :
    countFor ps it = 0 ↔ ¬ hasSufficient ps it := by
  unfold countFor hasSufficient
  rw [List.length_eq_zero, List.filter_eq_nil_iff]
  constructor
  · intro h hex
    obtain ⟨p, hp, hid, hs⟩ := hex
    exact h p hp (by simp [hid, hs])
  · intro h p hp hpred
    apply h
    simp only [Bool.and_eq_true, beq_iff_eq, decide_eq_true_eq] at hpred
    exact ⟨p, hp, hpred.1, hpred.2⟩

theorem decrementAll_counts (items : List OrderItemInput) (ps : List Product)
    (hnd : (items.map (fun it => it.productId)).Nodup) :
    (decrementAll ps items).2 = items.map (fun it => countFor ps it) := by
  induction items generalizing ps with
  | nil => rfl
  | cons it rest ih =>
    simp only [List.map_cons, List.nodup_cons] at hnd
    obtain ⟨hni, hnd2⟩ := hnd
    simp only [decrementAll, List.map_cons]
    congr 1
    rw [ih _ hnd2]
    apply List.map_congr_left
    intro r hr
    apply countFor_condDecrement_other
    intro heq
    exact hni (heq ▸ List.mem_map_of_mem _ hr)

theorem find_eq_of_nodup (ps : List Product) (row : Product) (pid : String)
    (hmem : row ∈ ps) (hid : row.id = pid)
    (hnd : (ps.map (fun p => p.id)).Nodup) :
    ps.find? (fun p => p.id == pid) = some row := by
  induction ps with
  | nil => cases hmem
  | cons p rest ih =>
    simp only [List.map_cons, List.nodup_cons] at hnd
    obtain ⟨hnp, hnd2⟩ := hnd
    rcases List.mem_cons.mp hmem with rfl | hmem2
    · simp [List.find?_cons, hid]
    · have hne : ¬(p.id == pid) = true := by
        simp only [beq_iff_eq]
        intro hh
        exact hnp ((hh.trans hid.symm) ▸ List.mem_map_of_mem _ hmem2)
      simp only [List.find?_cons]
      rw [show (p.id == pid) = false from Bool.eq_false_iff.mpr hne]
      exact ih hmem2 hnd2

theorem stockIn_condDecrement_self (ps : List Product) (pid : String) (q : Nat)
    (hnd : (ps.map (fun p => p.id)).Nodup)
    (row : Product) (hmem : row ∈ ps) (hid : row.id = pid)
    (hs : (q : Int) ≤ row.stock) :
    (q : Int) ≤ stockIn ps pid ∧
    stockIn (condDecrement ps pid q).1 pid = stockIn ps pid - q := by
  have hf := find_eq_of_nodup ps row pid hmem hid hnd
  unfold stockIn
  rw [find_condDecrement, hf]
  simp only [Option.map_some']
  have hcond : (row.id == pid && decide ((q : Int) ≤ row.stock)) = true := by
    simp [hid, hs]
  rw [if_pos hcond]
  exact ⟨hs, rfl⟩

theorem stockIn_condDecrement_other (ps : List Product) (pid0 : String) (q : Nat)
    (pid : String) (h : pid ≠ pid0) :
    stockIn (condDecrement ps pid0 q).1 pid = stockIn ps pid := by
  unfold stockIn
  rw [find_condDecrement]
  cases hf : ps.find? (fun p => p.id == pid) with
  | none => rfl
  | some p =>
    have hpid : p.id = pid := by
      have h2 := List.find?_some hf
      simpa using h2
    simp only [Option.map_some']
    rw [if_neg]
    intro hc
    have h2 := ((Bool.and_eq_true _ _).mp hc).1
    have h3 : p.id = pid0 := by simpa using h2
    exact h (h3 ▸ hpid).symm

theorem runCreateTx_ok_shape (db : DB) (uid oid : String) (req : OrderCreateInput)
    (total : Rat) (iwd : List OrderItem) (db1 : DB) (o : Order)
    (h : runCreateTx db uid oid req total iwd = .ok (db1, o)) :
    o = { id := oid, userId := uid, total := total, status := .PENDING,
          paymentMethod := req.paymentMethod, customerNote := req.customerNote,
          idempotencyKey := req.idempotencyKey, trackingNumber := none,
          shippingAddress := req.shippingAddress,
          billingAddress := req.billingAddress.getD req.shippingAddress,
          items := iwd } ∧
    db1 = { products := (decrementAll db.products req.items).1,
            orders := db.orders ++ [o],
            events := db.events ++
              [{ orderId := oid, type := "CREATED", userId := uid,
                 payload := .created .PENDING total }] } ∧
    checkCounts ((decrementAll db.products req.items).2.zip
      (req.items.map (fun it => it.productId))) = .ok () := by
  simp only [runCreateTx] at h
  split at h
  · cases h
  · rename_i u hcc
    cases u
    have hpair := Except.ok.inj h
    have ho : o = _ := (congrArg Prod.snd hpair).symm
    have hdb : db1 = _ := (congrArg Prod.fst hpair).symm
    exact ⟨ho, by rw [hdb, ho], hcc⟩

theorem runCreateTx_error_of (db : DB) (uid oid : String) (req : OrderCreateInput)
    (total : Rat) (iwd : List OrderItem) (e : OrderError)
    (hcc : checkCounts ((decrementAll db.products req.items).2.zip
      (req.items.map (fun it => it.productId))) = .error e) :
    runCreateTx db uid oid req total iwd = .error e := by
  simp only [runCreateTx]
  split
  · rename_i e2 hcc2
    rw [hcc2] at hcc
    exact congrArg Except.error (Except.error.inj hcc).symm ▸ rfl
  · rename_i u hcc2
    rw [hcc2] at hcc
    cases hcc

theorem createOrder_no_key_hit (db : DB) (env : Env) (fraud : FraudOutcome)
    (uid oid : String) (req : OrderCreateInput)
    (hidem : ∀ k, req.idempotencyKey = some k → db.findOrderByKey k = none) :
    createOrder db env fraud uid oid req = createOrderMain db env fraud uid oid req := by
  unfold createOrder
  cases hk : req.idempotencyKey with
  | none => rfl
  | some k =>
    dsimp only
    rw [hidem k hk]

theorem createOrder_key_hit (db : DB) (env : Env) (fraud : FraudOutcome)
    (uid oid : String) (req : OrderCreateInput) (k : String) (e : Order)
    (hk : req.idempotencyKey = some k) (he : db.findOrderByKey k = some e) :
    createOrder db env fraud uid oid req = (db, .conflictExisting e) := by
  unfold createOrder
  rw [hk]
  dsimp only
  rw [he]

theorem createOrderMain_error_shape (db : DB) (env : Env) (fraud : FraudOutcome)
    (uid oid : String) (req : OrderCreateInput) (priced : Rat × List OrderItem)
    (pid : String)
    (hcalc : calculateOrderTotal db req.items = some priced)
    (htx : runCreateTx db uid oid req priced.1 priced.2 = .error (.InsufficientStock pid)) :
    createOrderMain db env fraud uid oid req = (db, .insufficientStock pid) := by
  simp only [createOrderMain, hcalc, htx]

theorem createOrderMain_created (db : DB) (env : Env) (fraud : FraudOutcome)
    (uid oid : String) (req : OrderCreateInput) (db1 : DB) (o : Order)
    (h : createOrderMain db env fraud uid oid req = (db1, .created o)) :
    ∃ priced, calculateOrderTotal db req.items = some priced ∧
      ∃ dbc, runCreateTx db uid oid req priced.1 priced.2 = .ok (dbc, o) ∧
        db1.products = dbc.products ∧
        ∃ g : Order → Order, (∀ x, (g x).idempotencyKey = x.idempotencyKey) ∧
          (∀ x, (g x).id = x.id) ∧ db1.orders = dbc.orders.map g := by
  simp only [createOrderMain] at h
  split at h
  · simp at h
  · rename_i priced hcalc
    refine ⟨priced, hcalc, ?_⟩
    split at h
    · simp at h
    · simp at h
    · rename_i committed htx
      split at h
      · split at h
        · simp at h
        · rename_i risk hrisk
          split at h
          · injection h with hdb ho
            injection ho with ho2
            subst hdb
            subst ho2
            refine ⟨committed.1, htx, rfl, ?_⟩
            refine ⟨fun x => if x.id == committed.2.id then
              { x with status := OrderStatus.PENDING_REVIEW } else x, ?_, ?_, rfl⟩
            · intro x
              dsimp only
              split <;> rfl
            · intro x
              dsimp only
              split <;> rfl
          · injection h with hdb ho
            injection ho with ho2
            subst hdb
            subst ho2
            exact ⟨committed.1, htx, rfl, id, fun x => rfl, fun x => rfl, by simp⟩
      · injection h with hdb ho
        injection ho with ho2
        subst hdb
        subst ho2
        exact ⟨committed.1, htx, rfl, id, fun x => rfl, fun x => rfl, by simp⟩

theorem notifyShippingProvider_ok (b : Bool) : notifyShippingProvider b = .ok () := by
  cases b <;> rfl

theorem stockIn_decrementAll_other (items : List OrderItemInput) (ps : List Product)
    (pid : String) (h : ∀ it ∈ items, it.productId ≠ pid) :
    stockIn (decrementAll ps items).1 pid = stockIn ps pid := by
  induction items generalizing ps with
  | nil => rfl
  | cons it rest ih =>
    simp only [decrementAll]
    rw [ih _ (fun r hr => h r (List.mem_cons_of_mem _ hr)),
        stockIn_condDecrement_other _ _ _ _
          (fun he => h it (List.mem_cons_self _ _) he.symm)]

theorem hasSufficient_condDecrement_other (ps : List Product) (pid0 : String)
    (q0 : Nat) (it : OrderItemInput) (h : it.productId ≠ pid0) :
    hasSufficient (condDecrement ps pid0 q0).1 it ↔ hasSufficient ps it := by
  rw [← not_iff_not, ← countFor_eq_zero_iff, ← countFor_eq_zero_iff,
      countFor_condDecrement_other _ _ _ _ h]

theorem stockIn_decrementAll_nodup (items : List OrderItemInput) (ps : List Product)
    (hnd : (items.map (fun it => it.productId)).Nodup)
    (hwf : (ps.map (fun p => p.id)).Nodup)
    (it : OrderItemInput) (hit : it ∈ items) (hsuf : hasSufficient ps it) :
    (it.quantity : Int) ≤ stockIn ps it.productId ∧
    stockIn (decrementAll ps items).1 it.productId =
      stockIn ps it.productId - it.quantity := by
  induction items generalizing ps with
  | nil => cases hit
  | cons it0 rest ih =>
    simp only [List.map_cons, List.nodup_cons] at hnd
    obtain ⟨hni, hnd2⟩ := hnd
    simp only [decrementAll]
    rcases List.mem_cons.mp hit with rfl | hmem
    · obtain ⟨row, hrow, hid, hs⟩ := hsuf
      obtain ⟨hle, heq⟩ :=
        stockIn_condDecrement_self ps it.productId it.quantity hwf row hrow hid hs
      refine ⟨hle, ?_⟩
      have hother : ∀ r ∈ rest, r.productId ≠ it.productId := by
        intro r hr hrpid
        exact hni (hrpid ▸ List.mem_map_of_mem _ hr)
      rw [stockIn_decrementAll_other rest _ it.productId hother, heq]
    · have hne : it.productId ≠ it0.productId := by
        intro he
        exact hni (he ▸ List.mem_map_of_mem _ hmem)
      have hwf2 : ((condDecrement ps it0.productId it0.quantity).1.map
          (fun p => p.id)).Nodup := by
        rw [condDecrement_ids]
        exact hwf
      have hsuf2 : hasSufficient (condDecrement ps it0.productId it0.quantity).1 it :=
        (hasSufficient_condDecrement_other _ _ _ _ hne).mpr hsuf
      have hres := ih _ hnd2 hwf2 hmem hsuf2
      rw [stockIn_condDecrement_other _ _ _ _ hne] at hres
      exact hres

theorem createOrderMain_products_cases (db : DB) (env : Env) (fraud : FraudOutcome)
    (uid oid : String) (req : OrderCreateInput) :
    (createOrderMain db env fraud uid oid req).1.products = db.products ∨
    (createOrderMain db env fraud uid oid req).1.products =
      (decrementAll db.products req.items).1 := by
  unfold createOrderMain
  split
  · exact Or.inl rfl
  · rename_i priced hcalc
    split
    · exact Or.inl rfl
    · exact Or.inl rfl
    · rename_i committed htx
      have hc := (runCreateTx_ok_shape db uid oid req priced.1 priced.2
        committed.1 committed.2 htx).2.1
      have hp : committed.1.products = (decrementAll db.products req.items).1 :=
        congrArg DB.products hc
      split
      · split
        · exact Or.inr hp
        · split
          · exact Or.inr hp
          · exact Or.inr hp
      · exact Or.inr hp

theorem createOrder_products_cases (db : DB) (env : Env) (fraud : FraudOutcome)
    (uid oid : String) (req : OrderCreateInput) :
    (createOrder db env fraud uid oid req).1.products = db.products ∨
    (createOrder db env fraud uid oid req).1.products =
      (decrementAll db.products req.items).1 := by
  unfold createOrder
  split
  · split
    · exact Or.inl rfl
    · exact createOrderMain_products_cases db env fraud uid oid req
  · exact createOrderMain_products_cases db env fraud uid oid req

theorem createOrder_wfProducts (db : DB) (env : Env) (fraud : FraudOutcome)
    (uid oid : String) (req : OrderCreateInput) (hwf : db.wfProducts) :
    (createOrder db env fraud uid oid req).1.wfProducts := by
  unfold DB.wfProducts at *
  rcases createOrder_products_cases db env fraud uid oid req with h | h
  · rw [h]
    exact hwf
  · rw [h, decrementAll_ids]
    exact hwf

theorem createOrderMain_created_stock (db : DB) (env : Env) (fraud : FraudOutcome)
    (uid oid : String) (req : OrderCreateInput) (db1 : DB) (o : Order)
    (hwf : db.wfProducts)
    (hnd : (req.items.map (fun it => it.productId)).Nodup)
    (h : createOrderMain db env fraud uid oid req = (db1, .created o))
    (it : OrderItemInput) (hit : it ∈ req.items) :
    (it.quantity : Int) ≤ stockIn db.products it.productId ∧
    stockIn db1.products it.productId =
      stockIn db.products it.productId - it.quantity := by
  obtain ⟨priced, hcalc, dbc, htx, hprod, -⟩ := createOrderMain_created db env fraud uid oid req db1 o h
  obtain ⟨-, hdbc, hcc⟩ := runCreateTx_ok_shape db uid oid req priced.1 priced.2 dbc o htx
  have hzip : (decrementAll db.products req.items).2.zip
      (req.items.map (fun it => it.productId)) =
      req.items.map (fun it => (countFor db.products it, it.productId)) := by
    rw [decrementAll_counts _ _ hnd, List.zip_map']
  have hall := checkCounts_all_of_ok _ hcc
  have hcnt : countFor db.products it ≠ 0 := by
    have hmem := List.mem_map_of_mem
      (fun it => (countFor db.products it, it.productId)) hit
    rw [← hzip] at hmem
    exact hall _ hmem
  have hsuf : hasSufficient db.products it := by
    by_contra hns
    exact hcnt ((countFor_eq_zero_iff _ _).mpr hns)
  have hmain := stockIn_decrementAll_nodup req.items db.products hnd hwf it hit hsuf
  have hp1 : db1.products = (decrementAll db.products req.items).1 := by
    rw [hprod, hdbc]
  rw [hp1]
  exact hmain

theorem updateStatus_products_cases (db : DB) (id : String) (ts : OrderStatus)
    (tn : Option String) (uid : String) (shipOk : Bool) :
    (updateStatus db id ts tn uid shipOk).1.products = db.products ∨
    ∃ o allowed, db.findOrder id = some o ∧
      VALID_STATUS_TRANSITIONS o.status = some allowed ∧ ts ∈ allowed ∧
      ts = .CANCELLED ∧ (o.status = .PENDING ∨ o.status = .PROCESSING) ∧
      revertAll db.products o.items =
        some ((updateStatus db id ts tn uid shipOk).1.products) := by
  simp only [updateStatus]
  split
  · exact Or.inl rfl
  · rename_i o ho
    split
    · exact Or.inl rfl
    · rename_i allowed hall
      split
      · rename_i hmem
        by_cases hrev : (ts == OrderStatus.CANCELLED &&
            (o.status == OrderStatus.PENDING || o.status == OrderStatus.PROCESSING)) = true
        · simp only [if_pos hrev]
          have hrev2 : ts = OrderStatus.CANCELLED ∧
              (o.status = OrderStatus.PENDING ∨ o.status = OrderStatus.PROCESSING) := by
            simpa using hrev
          split
          · exact Or.inl rfl
          · rename_i ps hrevert
            split
            · rename_i e hship
              rw [notifyShippingProvider_ok] at hship
              split at hship <;> cases hship
            · exact Or.inr ⟨o, allowed, ho, hall, hmem, hrev2.1, hrev2.2, by rw [hrevert]⟩
        · simp only [if_neg hrev]
          split
          · rename_i e hship
            rw [notifyShippingProvider_ok] at hship
            split at hship <;> cases hship
          · exact Or.inl rfl
      · exact Or.inl rfl

theorem step_nonneg (db : DB) (op : Op) (h0 : ∀ p ∈ db.products, 0 ≤ p.stock) :
    ∀ p ∈ (step db op).products, 0 ≤ p.stock := by
  cases op with
  | create env fraud uid oid req =>
    simp only [step]
    rcases createOrder_products_cases db env fraud uid oid req with h | h
    · rw [h]
      exact h0
    · rw [h]
      exact decrementAll_nonneg _ _ h0
  | update id ts tn uid shipOk =>
    simp only [step]
    rcases updateStatus_products_cases db id ts tn uid shipOk with h | h
    · rw [h]
      exact h0
    · obtain ⟨o, allowed, -, -, -, -, -, hrev⟩ := h
      exact revertAll_nonneg _ _ _ hrev h0

theorem step_stock_le (db : DB) (op : Op) (pid : String) :
    stockIn (step db op).products pid ≤
      stockIn db.products pid + (reversedInStep db op pid : Int) := by
  cases op with
  | create env fraud uid oid req =>
    simp only [step, reversedInStep]
    rcases createOrder_products_cases db env fraud uid oid req with h | h
    · rw [h]
      simp
    · rw [h]
      have := stockIn_decrementAll_le req.items db.products pid
      simpa using this
  | update id ts tn uid shipOk =>
    rcases updateStatus_products_cases db id ts tn uid shipOk with h | h
    · simp only [step] at h ⊢
      rw [h]
      have hr : (0 : Int) ≤ (reversedInStep db (.update id ts tn uid shipOk) pid : Int) :=
        Int.natCast_nonneg _
      omega
    · obtain ⟨o, allowed, ho, hall, hmem, hts, hst, hrev⟩ := h
      simp only [step] at hrev ⊢
      have heq := stockIn_revertAll _ _ _ hrev pid
      have hstep : reversedInStep db (.update id ts tn uid shipOk) pid =
          qtyFor o.items pid := by
        simp only [reversedInStep, ho, hall]
        rw [if_pos ⟨hmem, hts, hst⟩]
      rw [hstep, heq]

/-- C4: starting from any store in which every product's stock is non-negative,
every sequence of createOrder and updateStatus commands keeps every product's
stock at or above 0 (each decrement is guarded by the `stock ≥ quantity`
condition), and never raises a product's stock above its original value plus
the quantities reversed by cancellations along the trace. -/
theorem stock_invariant (db : DB) (ops : List Op)
    (h0 : ∀ p ∈ db.products, 0 ≤ p.stock) :
    (∀ p ∈ (run db ops).products, 0 ≤ p.stock) ∧
    ∀ pid, stockIn (run db ops).products pid ≤
      stockIn db.products pid + (reversedQty db ops pid : Int) := by
  induction ops generalizing db with
  | nil =>
    refine ⟨h0, fun pid => ?_⟩
    simp [run, reversedQty]
  | cons op rest ih =>
    obtain ⟨ha, hb⟩ := ih (step db op) (step_nonneg db op h0)
    refine ⟨ha, fun pid => ?_⟩
    have h1 := hb pid
    have h2 := step_stock_le db op pid
    have h3 : reversedQty db (op :: rest) pid =
        reversedInStep db op pid + reversedQty (step db op) rest pid := rfl
    have h4 : run db (op :: rest) = run (step db op) rest := rfl
    rw [h4, h3]
    push_cast
    omega

/-- Witness for C4: the invariant holds concretely for a trace that creates an
order for `p1` and then cancels the fixture order over two products. -/
theorem stock_invariant_witness :
    (∀ p ∈ dbCancel.products, 0 ≤ p.stock) ∧
    ((∀ p ∈ (run dbCancel opsCancel).products, 0 ≤ p.stock) ∧
     ∀ pid, stockIn (run dbCancel opsCancel).products pid ≤
       stockIn dbCancel.products pid + (reversedQty dbCancel opsCancel pid : Int)) :=
  ⟨by decide, stock_invariant dbCancel opsCancel (by decide)⟩

theorem find_map_update (l : List Order) (id : String) (u : Order) (o : Order)
    (ho : l.find? (fun x => x.id == id) = some o) (hu : u.id = o.id) :
    (l.map (fun x => if x.id == id then u else x)).find? (fun x => x.id == id) =
      some u := by
  induction l with
  | nil => cases ho
  | cons x rest ih =>
    by_cases hx : (x.id == id) = true
    · simp only [List.find?_cons, hx] at ho
      have ho2 : x = o := Option.some_inj.mp ho
      have hpid : x.id = id := by simpa using hx
      have hui : (u.id == id) = true := by
        simp [hu, ← ho2, hpid]
      simp only [List.map_cons, if_pos hx, List.find?_cons, hui]
    · have hxf : (x.id == id) = false := Bool.eq_false_iff.mpr hx
      simp only [List.find?_cons, hxf] at ho
      simp only [List.map_cons, List.find?_cons, hxf, Bool.false_eq_true, if_false]
      exact ih ho

/-- C10: an order whose status is PENDING_REVIEW (reachable only through the
fraud hook) has no key in VALID_STATUS_TRANSITIONS, so for every target status
the update handler's allowed-set lookup is undefined and the request fails with
the generic internal error — not InvalidStatusTransition, not OrderNotFound —
and mutates nothing: PENDING_REVIEW orders are terminal through this API. -/
theorem pending_review_terminal (db : DB) (id : String) (targetStatus : OrderStatus)
    (tn : Option String) (userId : String) (shipOk : Bool) (o : Order)
    (ho : db.findOrder id = some o) (hs : o.status = .PENDING_REVIEW) :
    updateStatus db id targetStatus tn userId shipOk = (db, .internalError) := by
  simp only [updateStatus, ho, hs, VALID_STATUS_TRANSITIONS]

/-- Witness for C10: the fixture PENDING_REVIEW order cannot be moved to
PROCESSING; the handler answers the internal error and the store is unchanged. -/
theorem pending_review_terminal_witness :
    dbReview.findOrder "o1" = some { exOrder with status := .PENDING_REVIEW } ∧
    ({ exOrder with status := OrderStatus.PENDING_REVIEW }).status = .PENDING_REVIEW ∧
    updateStatus dbReview "o1" .PROCESSING none "admin" true =
      (dbReview, .internalError) :=
  ⟨by decide, by decide,
    pending_review_terminal dbReview "o1" .PROCESSING none "admin" true
      { exOrder with status := .PENDING_REVIEW } (by decide) rfl⟩

/-- C3 counterexample: on an order in status PENDING_REVIEW the update handler
does not fail with InvalidStatusTransition for the pair
(PENDING_REVIEW, PROCESSING) — a pair not in the transition table — but with
the generic internal error, so the claim's universal statement is false. -/
theorem updateStatus_pending_review_counterexample :
    (updateStatus dbReview "o1" .PROCESSING none "admin" true).2 ≠
      UpdateResult.invalidTransition OrderStatus.PENDING_REVIEW OrderStatus.PROCESSING ∧
    (updateStatus dbReview "o1" .PROCESSING none "admin" true).2 =
      UpdateResult.internalError := by
  decide

/-- C3 (amended): for every order whose current status is one of the six
statuses keyed in the transition table, and every target not in its allowed
set, updateStatus fails with InvalidStatusTransition(from, to) and returns the
store unchanged; updateStatus on an id with no order fails with OrderNotFound,
also leaving the store unchanged. -/
theorem updateStatus_rejects_illegal (db : DB) (id : String)
    (targetStatus : OrderStatus) (tn : Option String) (userId : String)
    (shipOk : Bool) :
    (db.findOrder id = none →
      updateStatus db id targetStatus tn userId shipOk = (db, .notFound id)) ∧
    (∀ o allowed, db.findOrder id = some o →
      VALID_STATUS_TRANSITIONS o.status = some allowed →
      targetStatus ∉ allowed →
      updateStatus db id targetStatus tn userId shipOk =
        (db, .invalidTransition o.status targetStatus)) := by
  constructor
  · intro h
    simp only [updateStatus, h]
  · intro o allowed ho hall hmem
    simp only [updateStatus, ho, hall, hmem, if_false]

/-- Witness for C3: a missing id yields OrderNotFound, and SHIPPED is rejected
from PENDING with InvalidStatusTransition, both leaving the fixture store
unchanged. -/
theorem updateStatus_rejects_illegal_witness :
    (dbPending.findOrder "missing" = none ∧
     updateStatus dbPending "missing" .PROCESSING none "admin" true =
       (dbPending, .notFound "missing")) ∧
    (dbPending.findOrder "o1" = some exOrder ∧
     VALID_STATUS_TRANSITIONS exOrder.status =
       some [.PROCESSING, .CANCELLED] ∧
     OrderStatus.SHIPPED ∉ [OrderStatus.PROCESSING, OrderStatus.CANCELLED] ∧
     updateStatus dbPending "o1" .SHIPPED none "admin" true =
       (dbPending, .invalidTransition .PENDING .SHIPPED)) := by
  refine ⟨⟨by decide, ?_⟩, by decide, by decide, by decide, ?_⟩
  · exact (updateStatus_rejects_illegal dbPending "missing" .PROCESSING none
      "admin" true).1 (by decide)
  · exact (updateStatus_rejects_illegal dbPending "o1" .SHIPPED none
      "admin" true).2 exOrder [.PROCESSING, .CANCELLED] (by decide) (by decide)
      (by decide)

/-- C8 counterexample: a successful PENDING → PROCESSING transition carrying a
tracking number persists that tracking number although the order is not moving
to SHIPPED, refuting the claim that trackingNumber is mutated only when moving
to SHIPPED. -/
theorem updateStatus_tracking_counterexample :
    Option.map (fun o => o.trackingNumber)
      ((updateStatus dbPending "o1" .PROCESSING (some "TRACK-1")
        "admin" true).1.findOrder "o1") = some (some "TRACK-1") ∧
    Option.map (fun o => o.trackingNumber) (dbPending.findOrder "o1") =
      some none ∧
    OrderStatus.PROCESSING ≠ OrderStatus.SHIPPED := by
  decide

/-- C8 (amended): a successful updateStatus mutates only the target order's
status and — exactly when a (non-empty) tracking number is supplied in the
request, for any target status — its trackingNumber; every other field of the
order, every other order, and every existing event are unchanged, and exactly
one STATUS_CHANGE event is appended. -/
theorem updateStatus_frame (db : DB) (id : String) (targetStatus : OrderStatus)
    (tn : Option String) (userId : String) (shipOk : Bool) (o : Order)
    (ho : db.findOrder id = some o) (db1 : DB) (o1 : Order)
    (h : updateStatus db id targetStatus tn userId shipOk = (db1, .ok o1)) :
    o1.id = o.id ∧ o1.userId = o.userId ∧ o1.total = o.total ∧
    o1.paymentMethod = o.paymentMethod ∧ o1.customerNote = o.customerNote ∧
    o1.idempotencyKey = o.idempotencyKey ∧
    o1.shippingAddress = o.shippingAddress ∧
    o1.billingAddress = o.billingAddress ∧ o1.items = o.items ∧
    o1.status = targetStatus ∧
    o1.trackingNumber = (if truthy tn = true then tn else o.trackingNumber) ∧
    db1.orders = db.orders.map (fun x => if x.id == id then o1 else x) ∧
    (∀ x ∈ db.orders, x.id ≠ id → x ∈ db1.orders) ∧
    db1.events = db.events ++
      [{ orderId := id, type := "STATUS_CHANGE", userId := userId,
         payload := .statusChange o.status targetStatus
           (if truthy tn = true then tn else none) }] := by
  simp only [updateStatus, ho] at h
  split at h
  · injection h with h1 h2
    cases h2
  · rename_i allowed hall
    split at h
    · split at h
      · injection h with h1 h2
        cases h2
      · rename_i ps hrevert
        split at h
        · injection h with h1 h2
          cases h2
        · injection h with hdb hres
          injection hres with ho1
          subst hdb
          subst ho1
          refine ⟨rfl, rfl, rfl, rfl, rfl, rfl, rfl, rfl, rfl, rfl, rfl, rfl, ?_, rfl⟩
          intro x hx hne
          refine List.mem_map.mpr ⟨x, hx, ?_⟩
          rw [if_neg]
          simp only [beq_iff_eq]
          exact hne
    · injection h with h1 h2
      cases h2

/-- Witness for C8: the concrete PENDING → PROCESSING transition with tracking
number TRACK-1 satisfies the frame condition. -/
theorem updateStatus_frame_witness :
    dbPending.findOrder "o1" = some exOrder ∧
    updateStatus dbPending "o1" .PROCESSING (some "TRACK-1") "admin" true =
      (dbPendingTracked, .ok exOrderTracked) ∧
    exOrderTracked.total = exOrder.total ∧
    exOrderTracked.status = OrderStatus.PROCESSING :=
  have happ := updateStatus_frame dbPending "o1" .PROCESSING (some "TRACK-1")
    "admin" true exOrder (by decide) dbPendingTracked exOrderTracked (by decide)
  ⟨by decide, by decide, happ.2.2.1, happ.2.2.2.2.2.2.2.2.2.1⟩

/-- C5: a successful updateStatus to CANCELLED of an order in PENDING or
PROCESSING increments each item's product stock by exactly that item's
quantity, exactly once, in the same atomic transaction that sets the status
and appends the STATUS_CHANGE event; a successful transition to any status
other than CANCELLED changes no stock. -/
theorem cancellation_reverses_stock (db : DB) (id : String) (ts : OrderStatus)
    (tn : Option String) (userId : String) (shipOk : Bool) (o : Order)
    (ho : db.findOrder id = some o) (db1 : DB) (o1 : Order)
    (h : updateStatus db id ts tn userId shipOk = (db1, .ok o1)) :
    (ts = .CANCELLED → (o.status = .PENDING ∨ o.status = .PROCESSING) →
      (∀ pid, stockIn db1.products pid =
        stockIn db.products pid + (qtyFor o.items pid : Int)) ∧
      o1.status = .CANCELLED ∧ db1.findOrder id = some o1 ∧
      db1.events = db.events ++
        [{ orderId := id, type := "STATUS_CHANGE", userId := userId,
           payload := .statusChange o.status .CANCELLED
             (if truthy tn = true then tn else none) }]) ∧
    (ts ≠ .CANCELLED → db1.products = db.products) := by
  simp only [updateStatus, ho] at h
  split at h
  · injection h with h1 h2
    cases h2
  · rename_i allowed hall
    split at h
    · rename_i hmem
      by_cases hrev : (ts == OrderStatus.CANCELLED &&
          (o.status == OrderStatus.PENDING || o.status == OrderStatus.PROCESSING)) = true
      · simp only [if_pos hrev] at h
        split at h
        · injection h with h1 h2
          cases h2
        · rename_i ps hrevert
          split at h
          · injection h with h1 h2
            cases h2
          · injection h with hdb hres
            injection hres with ho1
            subst hdb
            subst ho1
            have hts : ts = OrderStatus.CANCELLED := by
              have h2 := ((Bool.and_eq_true _ _).mp hrev).1
              simpa using h2
            subst hts
            constructor
            · intro _ _
              refine ⟨fun pid => stockIn_revertAll _ _ _ hrevert pid, rfl, ?_, rfl⟩
              exact find_map_update db.orders id _ o ho rfl
            · intro hne
              exact absurd rfl hne
      · simp only [if_neg hrev] at h
        split at h
        · injection h with h1 h2
          cases h2
        · injection h with hdb hres
          injection hres with ho1
          subst hdb
          subst ho1
          constructor
          · intro hts hst
            exfalso
            apply hrev
            rcases hst with hp | hp <;> simp [hts, hp]
          · intro _
            rfl
    · injection h with h1 h2
      cases h2

/-- Witness for C5: cancelling the fixture PENDING order with items 2 of p1
and 1 of p2 raises p1's stock from 3 to 5 and p2's from 5 to 6, exactly once. -/
theorem cancellation_reverses_stock_witness :
    dbCancel.findOrder "o1" = some orderCancel ∧
    updateStatus dbCancel "o1" .CANCELLED none "admin" true =
      (dbCancelAfter, .ok orderCancelled) ∧
    ((∀ pid, stockIn dbCancelAfter.products pid =
        stockIn dbCancel.products pid + (qtyFor orderCancel.items pid : Int)) ∧
     orderCancelled.status = .CANCELLED ∧
     dbCancelAfter.findOrder "o1" = some orderCancelled ∧
     dbCancelAfter.events = dbCancel.events ++ [evCancelled]) :=
  have happ := cancellation_reverses_stock dbCancel "o1" .CANCELLED none
    "admin" true orderCancel (by decide) dbCancelAfter orderCancelled (by decide)
  ⟨by decide, by decide, happ.1 rfl (Or.inl (by decide))⟩

theorem findOrderByKey_none (db : DB) (k : String)
    (h : ∀ x ∈ db.orders, x.idempotencyKey ≠ some k) :
    db.findOrderByKey k = none := by
  unfold DB.findOrderByKey
  rw [List.find?_eq_none]
  intro x hx hc
  exact h x hx (by simpa using hc)

/-- C2: order creation is idempotent under the idempotency key. If the request
carries a key for which an order already exists, the handler returns that
stored order with the 409 conflict signal and performs no writes at all; hence
when a first call with a fresh key succeeds, a second call with the same key
and payload leaves the store untouched, returns the stored order, and exactly
one order with that key is persisted. -/
theorem createOrder_idempotent (db : DB) (env env2 : Env)
    (fraud fraud2 : FraudOutcome) (uid1 oid1 uid2 oid2 : String)
    (req : OrderCreateInput) (k : String)
    (hk : req.idempotencyKey = some k) :
    (∀ e, db.findOrderByKey k = some e →
      createOrder db env fraud uid1 oid1 req = (db, .conflictExisting e)) ∧
    (∀ db1 o, (∀ x ∈ db.orders, x.idempotencyKey ≠ some k) →
      createOrder db env fraud uid1 oid1 req = (db1, .created o) →
      ∃ e, db1.findOrderByKey k = some e ∧ e.idempotencyKey = some k ∧
        createOrder db1 env2 fraud2 uid2 oid2 req = (db1, .conflictExisting e) ∧
        (db1.orders.filter (fun x => x.idempotencyKey == some k)).length = 1) := by
  constructor
  · intro e he
    exact createOrder_key_hit db env fraud uid1 oid1 req k e hk he
  · intro db1 o hnone h
    have hidem : ∀ k2, req.idempotencyKey = some k2 → db.findOrderByKey k2 = none := by
      intro k2 hk2
      have hkk : k2 = k := by
        rw [hk] at hk2
        exact (Option.some_inj.mp hk2).symm
      subst hkk
      exact findOrderByKey_none db k2 hnone
    rw [createOrder_no_key_hit db env fraud uid1 oid1 req hidem] at h
    obtain ⟨priced, hcalc, dbc, htx, hprod, g, hgkey, hgid, horders⟩ :=
      createOrderMain_created db env fraud uid1 oid1 req db1 o h
    obtain ⟨hoshape, hdbc, -⟩ :=
      runCreateTx_ok_shape db uid1 oid1 req priced.1 priced.2 dbc o htx
    have hokey : o.idempotencyKey = some k := by
      rw [hoshape]
      exact hk
    have hcorders : dbc.orders = db.orders ++ [o] := congrArg DB.orders hdbc
    have hpe : ((fun x : Order => x.idempotencyKey == some k) ∘ g) =
        (fun x : Order => x.idempotencyKey == some k) := by
      funext x
      simp [Function.comp, hgkey]
    have hfind : db1.findOrderByKey k = some (g o) := by
      unfold DB.findOrderByKey
      rw [horders, hcorders, List.find?_map, hpe, List.find?_append]
      have h1 : (db.orders.find? (fun x => x.idempotencyKey == some k)) = none := by
        rw [List.find?_eq_none]
        intro x hx hc
        exact hnone x hx (by simpa using hc)
      have h2 : ([o].find? (fun x => x.idempotencyKey == some k)) = some o := by
        rw [List.find?_singleton, if_pos (by simp [hokey])]
      rw [h1, h2]
      rfl
    refine ⟨g o, hfind, by rw [hgkey, hokey], ?_, ?_⟩
    · exact createOrder_key_hit db1 env2 fraud2 uid2 oid2 req k (g o) hk hfind
    · rw [horders, hcorders, ← List.countP_eq_length_filter, List.countP_map, hpe,
        List.countP_append, List.countP_singleton, if_pos (by simp [hokey])]
      have h0 : db.orders.countP (fun x => x.idempotencyKey == some k) = 0 := by
        rw [List.countP_eq_zero]
        intro x hx hc
        exact hnone x hx (by simpa using hc)
      rw [h0]

/-- Witness for C2: with the keyed fixture request against the one-unit store,
the first call persists one order; the second call with the same key returns
that stored order as a conflict, writes nothing, and exactly one order with
the key exists. -/
theorem createOrder_idempotent_witness :
    reqAKey.idempotencyKey = some keyA ∧
    (∀ x ∈ dbStock1.orders, x.idempotencyKey ≠ some keyA) ∧
    createOrder dbStock1 envOff .failed "u1" "o1" reqAKey =
      (dbAfterKey, .created orderAKey) ∧
    (∃ e, dbAfterKey.findOrderByKey keyA = some e ∧
      e.idempotencyKey = some keyA ∧
      createOrder dbAfterKey envOff .failed "u2" "o2" reqAKey =
        (dbAfterKey, .conflictExisting e) ∧
      (dbAfterKey.orders.filter
        (fun x => x.idempotencyKey == some keyA)).length = 1) :=
  ⟨rfl, by decide, by with_unfolding_all decide,
    (createOrder_idempotent dbStock1 envOff envOff .failed .failed "u1" "o1"
      "u2" "o2" reqAKey keyA rfl).2 dbAfterKey orderAKey (by decide)
      (by with_unfolding_all decide)⟩

theorem createOrder_created_main (db : DB) (env : Env) (fraud : FraudOutcome)
    (uid oid : String) (req : OrderCreateInput) (db1 : DB) (o : Order)
    (h : createOrder db env fraud uid oid req = (db1, .created o)) :
    createOrderMain db env fraud uid oid req = (db1, .created o) := by
  unfold createOrder at h
  split at h
  · split at h
    · injection h with h1 h2
      cases h2
    · exact h
  · exact h

theorem priceItems_spec (db : DB) (items : List OrderItemInput)
    (priced : List OrderItem) (h : priceItems db items = some priced) :
    ∀ it ∈ priced, it.subtotal = it.price * it.quantity ∧
      ∃ p, db.products.find? (fun q => q.id == it.productId) = some p ∧
        it.price = p.price := by
  induction items generalizing priced with
  | nil =>
    simp only [priceItems] at h
    rw [← Option.some_inj.mp h]
    intro it hit
    cases hit
  | cons it0 rest ih =>
    simp only [priceItems] at h
    split at h
    · cases h
    · rename_i p hp
      split at h
      · cases h
      · rename_i pr hpr
        have hpriced := Option.some_inj.mp h
        subst hpriced
        intro it hit
        rcases List.mem_cons.mp hit with rfl | hmem
        · exact ⟨rfl, p, hp, rfl⟩
        · exact ih pr hpr it hmem

/-- C6: every successfully created order's persisted total equals the sum of
its persisted items' subtotals, each item's subtotal equals its unit price
times its quantity, and each unit price is the server-side catalog price of
the item's product (re-derived, not the caller-supplied price). -/
theorem order_total_consistent (db : DB) (env : Env) (fraud : FraudOutcome)
    (uid oid : String) (req : OrderCreateInput) (db1 : DB) (o : Order)
    (h : createOrder db env fraud uid oid req = (db1, .created o)) :
    o.total = sumSubtotals o.items ∧
    ∀ it ∈ o.items, it.subtotal = it.price * it.quantity ∧
      ∃ p, db.products.find? (fun q => q.id == it.productId) = some p ∧
        it.price = p.price := by
  have hmain := createOrder_created_main db env fraud uid oid req db1 o h
  obtain ⟨priced, hcalc, dbc, htx, -, g, -, -, -⟩ :=
    createOrderMain_created db env fraud uid oid req db1 o hmain
  obtain ⟨hoshape, -, -⟩ :=
    runCreateTx_ok_shape db uid oid req priced.1 priced.2 dbc o htx
  unfold calculateOrderTotal at hcalc
  split at hcalc
  · cases hcalc
  · rename_i pr hpr
    have hpriced := Option.some_inj.mp hcalc
    subst hpriced
    constructor
    · rw [hoshape]
    · rw [hoshape]
      exact priceItems_spec db req.items pr hpr

/-- Witness for C6: the spec's example — items priced 10.00 × 2 and 5.50 × 1 —
creates an order with total 25.50 equal to the sum of the persisted subtotals,
using the catalog prices. -/
theorem order_total_consistent_witness :
    createOrder dbCatalog envOff .failed "u1" "o1" reqCatalog =
      (dbCatalogAfter, .created orderCatalog) ∧
    orderCatalog.total = 51/2 ∧
    (orderCatalog.total = sumSubtotals orderCatalog.items ∧
     ∀ it ∈ orderCatalog.items, it.subtotal = it.price * it.quantity ∧
       ∃ p, dbCatalog.products.find? (fun q => q.id == it.productId) = some p ∧
         it.price = p.price) :=
  ⟨by with_unfolding_all decide, by with_unfolding_all decide,
    order_total_consistent dbCatalog envOff .failed "u1" "o1" reqCatalog
      dbCatalogAfter orderCatalog (by with_unfolding_all decide)⟩

/-- C7: failures of the post-commit best-effort hooks never propagate. When
the fraud-scoring fetch fails, performFraudCheck's catch returns risk 0 (fail
open), so the handler still answers 201 with the created order and the
committed transaction state is untouched — no compensating rollback, no
status flip. The shipping-notification fetch is wrapped in its own catch, so
updateStatus returns the same result whether the webhook call fails or
succeeds, and a committed status update stays committed. -/
theorem hooks_fail_open (db : DB) (env : Env) (uid oid : String)
    (req : OrderCreateInput) (priced : Rat × List OrderItem) (db1 : DB)
    (o : Order)
    (hidem : ∀ k, req.idempotencyKey = some k → db.findOrderByKey k = none)
    (henv1 : env.productionMode = true) (henv2 : env.fraudCheckEnabled = true)
    (hthr : 0 ≤ env.fraudRiskThreshold)
    (hcalc : calculateOrderTotal db req.items = some priced)
    (htx : runCreateTx db uid oid req priced.1 priced.2 = .ok (db1, o)) :
    createOrder db env .failed uid oid req = (db1, .created o) ∧
    (∀ db2 id ts tn userId,
      updateStatus db2 id ts tn userId false =
        updateStatus db2 id ts tn userId true) ∧
    (∀ db2 id ts tn userId db3 o3,
      updateStatus db2 id ts tn userId true = (db3, .ok o3) →
      updateStatus db2 id ts tn userId false = (db3, .ok o3)) := by
  have hship : ∀ db2 id ts tn userId,
      updateStatus db2 id ts tn userId false =
        updateStatus db2 id ts tn userId true := by
    intro db2 id ts tn userId
    simp only [updateStatus, notifyShippingProvider_ok]
  refine ⟨?_, hship, ?_⟩
  · rw [createOrder_no_key_hit db env .failed uid oid req hidem]
    simp only [createOrderMain, hcalc, htx, henv1, henv2, Bool.and_self,
      if_true, performFraudCheck]
    rw [if_neg (not_lt.mpr hthr)]
  · intro db2 id ts tn userId db3 o3 h
    rw [hship db2 id ts tn userId]
    exact h

/-- Witness for C7: with fraud checking enabled in production at threshold 0.8
and a failing fraud service, the create call still answers 201 with the
committed order; updateStatus gives identical results for a failing and a
succeeding shipping webhook. -/
theorem hooks_fail_open_witness :
    (envOn.productionMode = true ∧ envOn.fraudCheckEnabled = true ∧
     0 ≤ envOn.fraudRiskThreshold) ∧
    calculateOrderTotal dbStock1 reqA.items = some (10, pricedItemsA) ∧
    runCreateTx dbStock1 "u1" "o1" reqA 10 pricedItemsA =
      .ok (dbAfterA, orderA) ∧
    createOrder dbStock1 envOn .failed "u1" "o1" reqA =
      (dbAfterA, .created orderA) ∧
    updateStatus dbPending "o1" .PROCESSING none "admin" false =
      updateStatus dbPending "o1" .PROCESSING none "admin" true :=
  have happ := hooks_fail_open dbStock1 envOn "u1" "o1" reqA (10, pricedItemsA)
    dbAfterA orderA (fun k hk => Option.noConfusion hk) rfl rfl
    (by with_unfolding_all decide) (by with_unfolding_all decide)
    (by with_unfolding_all decide)
  ⟨⟨rfl, rfl, by with_unfolding_all decide⟩, by with_unfolding_all decide,
    by with_unfolding_all decide, happ.1,
    happ.2.1 dbPending "o1" .PROCESSING none "admin"⟩

/-- C1: order creation is all-or-nothing. For every cart containing an item
whose conditional decrement affects zero rows (no product row with that id has
stock at or above the requested quantity), createOrder fails with
InsufficientStock naming such an item's product, and the store after the call
equals the store before it: no Order, no OrderItem, no OrderEvent and no
stock decrement for any item persists. -/
theorem createOrder_insufficient_rolls_back (db : DB) (env : Env)
    (fraud : FraudOutcome) (userId orderId : String) (req : OrderCreateInput)
    (hidem : ∀ k, req.idempotencyKey = some k → db.findOrderByKey k = none)
    (hnd : (req.items.map (fun it => it.productId)).Nodup)
    (hcalc : ∃ priced, calculateOrderTotal db req.items = some priced)
    (hbad : ∃ it ∈ req.items, ¬ hasSufficient db.products it) :
    ∃ it ∈ req.items, ¬ hasSufficient db.products it ∧
      createOrder db env fraud userId orderId req =
        (db, .insufficientStock it.productId) := by
  obtain ⟨priced, hcp⟩ := hcalc
  have hzip : (decrementAll db.products req.items).2.zip
      (req.items.map (fun it => it.productId)) =
      req.items.map (fun it => (countFor db.products it, it.productId)) := by
    rw [decrementAll_counts _ _ hnd, List.zip_map']
  have hex : ∃ x ∈ req.items.map
      (fun it => (countFor db.products it, it.productId)), x.1 = 0 := by
    obtain ⟨it0, hit0, hns⟩ := hbad
    exact ⟨_, List.mem_map_of_mem _ hit0, (countFor_eq_zero_iff _ _).mpr hns⟩
  obtain ⟨x, hxmem, hx0, herr⟩ := checkCounts_error_of_ex _ hex
  obtain ⟨it1, hit1, hxeq⟩ := List.mem_map.mp hxmem
  have hcnt : countFor db.products it1 = 0 := by
    have hx1 : x.1 = countFor db.products it1 := by
      rw [← hxeq]
    rw [← hx1]
    exact hx0
  refine ⟨it1, hit1, ?_, ?_⟩
  · rw [← countFor_eq_zero_iff]
    exact hcnt
  · rw [createOrder_no_key_hit db env fraud userId orderId req hidem]
    apply createOrderMain_error_shape db env fraud userId orderId req priced _ hcp
    apply runCreateTx_error_of
    rw [hzip]
    have hx2 : x.2 = it1.productId := by
      rw [← hxeq]
    rw [← hx2]
    exact herr

/-- Witness for C1: requesting 2 units of product A against a store holding a
single unit fails with InsufficientStock("A") and returns the store unchanged. -/
theorem createOrder_insufficient_rolls_back_witness :
    (∀ k, reqA2.idempotencyKey = some k → dbStock1.findOrderByKey k = none) ∧
    (reqA2.items.map (fun it => it.productId)).Nodup ∧
    (∃ priced, calculateOrderTotal dbStock1 reqA2.items = some priced) ∧
    (∃ it ∈ reqA2.items, ¬ hasSufficient dbStock1.products it) ∧
    (∃ it ∈ reqA2.items, ¬ hasSufficient dbStock1.products it ∧
      createOrder dbStock1 envOff .failed "u1" "o1" reqA2 =
        (dbStock1, .insufficientStock it.productId)) :=
  ⟨fun k hk => Option.noConfusion hk, by decide,
    ⟨(20, [{ productId := "A", quantity := 2, price := 10, subtotal := 20 }]),
      by with_unfolding_all decide⟩,
    ⟨{ productId := "A", quantity := 2, price := 10 }, by decide, by decide⟩,
    createOrder_insufficient_rolls_back dbStock1 envOff .failed "u1" "o1" reqA2
      (fun k hk => Option.noConfusion hk) (by decide)
      ⟨(20, [{ productId := "A", quantity := 2, price := 10, subtotal := 20 }]),
        by with_unfolding_all decide⟩
      ⟨{ productId := "A", quantity := 2, price := 10 }, by decide, by decide⟩⟩

theorem isCreated_iff (r : CreateResult) :
    r.isCreated = true ↔ ∃ o, r = .created o := by
  cases r <;> simp [CreateResult.isCreated]

/-- C9: concurrent overselling is impossible. The check-and-decrement is one
atomic conditional update per item, so the two transactions serialize on the
product row: in either serial order, two creations whose combined quantity
for one product exceeds its stock cannot both succeed. In the spec's
scenario — stock 1, two requests of quantity 1 — the first call creates the
order and drives the stock to 0, and the second fails with
InsufficientStock("A") and creates nothing. -/
theorem no_oversell (db : DB) (env1 env2 : Env) (fraud1 fraud2 : FraudOutcome)
    (uid1 uid2 oid1 oid2 : String) (req1 req2 : OrderCreateInput)
    (hwf : db.wfProducts)
    (hnd1 : (req1.items.map (fun it => it.productId)).Nodup)
    (hnd2 : (req2.items.map (fun it => it.productId)).Nodup)
    (it1 : OrderItemInput) (hit1 : it1 ∈ req1.items)
    (it2 : OrderItemInput) (hit2 : it2 ∈ req2.items)
    (hsame : it2.productId = it1.productId)
    (hover : stockIn db.products it1.productId <
      (it1.quantity : Int) + (it2.quantity : Int)) :
    (¬ ((createOrder db env1 fraud1 uid1 oid1 req1).2.isCreated = true ∧
        (createOrder (createOrder db env1 fraud1 uid1 oid1 req1).1
          env2 fraud2 uid2 oid2 req2).2.isCreated = true)) ∧
    ((createOrder dbStock1 envOff .failed "u1" "o1" reqA).2.isCreated = true ∧
     createOrder (createOrder dbStock1 envOff .failed "u1" "o1" reqA).1
       envOff .failed "u2" "o2" reqA =
       ((createOrder dbStock1 envOff .failed "u1" "o1" reqA).1,
        .insufficientStock "A") ∧
     stockIn (createOrder dbStock1 envOff .failed "u1" "o1" reqA).1.products
       "A" = 0 ∧
     (createOrder dbStock1 envOff .failed "u1" "o1" reqA).1.orders.length = 1) := by
  constructor
  · rintro ⟨h1, h2⟩
    obtain ⟨o1, ho1⟩ := (isCreated_iff _).mp h1
    obtain ⟨o2, ho2⟩ := (isCreated_iff _).mp h2
    have hpair1 : createOrder db env1 fraud1 uid1 oid1 req1 =
        ((createOrder db env1 fraud1 uid1 oid1 req1).1, .created o1) := by
      rw [← ho1]
    have hpair2 : createOrder (createOrder db env1 fraud1 uid1 oid1 req1).1
        env2 fraud2 uid2 oid2 req2 =
        ((createOrder (createOrder db env1 fraud1 uid1 oid1 req1).1
          env2 fraud2 uid2 oid2 req2).1, .created o2) := by
      rw [← ho2]
    have hm1 := createOrder_created_main db env1 fraud1 uid1 oid1 req1 _ o1 hpair1
    have hs1 := createOrderMain_created_stock db env1 fraud1 uid1 oid1 req1
      _ o1 hwf hnd1 hm1 it1 hit1
    have hwf1 := createOrder_wfProducts db env1 fraud1 uid1 oid1 req1 hwf
    have hm2 := createOrder_created_main _ env2 fraud2 uid2 oid2 req2 _ o2 hpair2
    have hs2 := createOrderMain_created_stock _ env2 fraud2 uid2 oid2 req2
      _ o2 hwf1 hnd2 hm2 it2 hit2
    rw [hsame] at hs2
    obtain ⟨hle1, heq1⟩ := hs1
    obtain ⟨hle2, -⟩ := hs2
    rw [heq1] at hle2
    omega
  · exact ⟨by with_unfolding_all decide, by with_unfolding_all decide,
      by with_unfolding_all decide, by with_unfolding_all decide⟩

/-- Witness for C9: against the one-unit store, two sequential one-unit
requests for product A cannot both be created. -/
theorem no_oversell_witness :
    dbStock1.wfProducts ∧
    ¬ ((createOrder dbStock1 envOff .failed "u1" "o1" reqA).2.isCreated = true ∧
       (createOrder (createOrder dbStock1 envOff .failed "u1" "o1" reqA).1
         envOff .failed "u2" "o2" reqA).2.isCreated = true) :=
  ⟨by unfold DB.wfProducts; decide,
    (no_oversell dbStock1 envOff envOff .failed .failed "u1" "u2" "o1" "o2"
      reqA reqA (by unfold DB.wfProducts; decide) (by decide) (by decide)
      { productId := "A", quantity := 1, price := 10 } (by decide)
      { productId := "A", quantity := 1, price := 10 } (by decide) rfl
      (by decide)).1⟩

end Heritage
